import Mathlib

/-!
# Verification of the SCJN blockchain/expedientes userscript ledger

Shallow embedding of the ledger, mining, validation and download-registry
code of `src/scripts/SCJN_Extractor_Ultimate.user.js` (and the structurally
identical download path of `SCJN_Mass_Downloader_GDrive.user.js`).

JavaScript strings are modelled as `List Char` (the scripts only ever build
strings from Basic-Multilingual-Plane characters, where `charCodeAt` agrees
with the Unicode code point `Char.toNat`). JavaScript's 32-bit signed
integer coercion (the `|`, `&`, `<<` operators) is modelled explicitly with
`toInt32`. Timestamps (`new Date().toISOString()`, `Date.now()`) are passed
in as explicit parameters.
-/

namespace SCJN

/-- JavaScript strings, modelled as lists of characters. -/
abbrev JSString := List Char

/-- JavaScript's ToInt32 coercion: reduce an integer modulo 2^32 into the
signed range [-2^31, 2^31). Applied by the `&` and `<<` operators. -/
def toInt32 (n : Int) : Int :=
  let r := n % 4294967296
  if r < 2147483648 then r else r - 4294967296

/-- One iteration of the accumulator loop of `Blockchain.sha256Sync`:
`hash = ((hash << 5) - hash) + char; hash = hash & hash;`.
`hash << 5` coerces to 32 bits and shifts (`toInt32 (h * 32)`); the
subtraction and addition are exact double-precision integer arithmetic;
`hash & hash` coerces the result back to 32 bits. -/
def sha256Step (h : Int) (c : Nat) : Int :=
  toInt32 (toInt32 (h * 32) - h + c)

/-- JavaScript `Number.prototype.toString(16)` / `toString(10)` digit production with
explicit fuel (the fuel `n + 1` used below always suffices):
minimal base-`base` digits of `n`, most significant first, using
`Nat.digitChar` (`0`-`9` then lowercase `a`-`f`, as in JavaScript). -/
def digitsAux (base : Nat) : Nat → Nat → List Char
  | 0, _ => []
  | fuel + 1, n =>
    if n < base then [Nat.digitChar n]
    else digitsAux base fuel (n / base) ++ [Nat.digitChar (n % base)]

/-- Rendering `n.toString(16)` for a non-negative integer `n`. -/
def toHex (n : Nat) : JSString := digitsAux 16 (n + 1) n

/-- Rendering `n.toString()` (decimal) for a non-negative integer `n`. -/
def toDec (n : Nat) : JSString := digitsAux 10 (n + 1) n

/-- JavaScript `String.prototype.padStart(64, '0')`. -/
def padStart64 (l : JSString) : JSString :=
  List.replicate (64 - l.length) '0' ++ l

/-- Embedding of `Blockchain.sha256Sync`: the "simplified synchronous SHA-256" of the
userscript — a signed 32-bit string accumulator, then
`Math.abs(hash).toString(16).padStart(64, '0')`. -/
def sha256Sync (s : JSString) : JSString :=
  padStart64 (toHex ((s.foldl (fun h c => sha256Step h c.toNat) 0).natAbs))

/-- A ledger block, with exactly the fields the userscript writes:
`index`, `timestamp`, `data` (kept as its JSON serialization), `previousHash`,
`nonce`, `difficulty` and `hash`. -/
structure Block where
  index : Nat
  timestamp : JSString
  data : JSString
  previousHash : JSString
  nonce : Nat
  difficulty : Nat
  hash : JSString
deriving DecidableEq

/-- The configuration value `CONFIG.seguridad.dificultadProofOfWork`. -/
def dificultadProofOfWork : Nat := 4

/-- The iteration ceiling `maxIteraciones` of `calcularProofOfWork`. -/
def maxIteraciones : Nat := 1000000

/-- The `JSON.stringify({index, timestamp, data, previousHash, nonce})`
string built by `Blockchain.calcularHashBloque` — note that neither
`difficulty` nor the stored `hash` is part of it. -/
def bloqueString (b : Block) : JSString :=
  "\x7b\"index\":".data ++ toDec b.index
    ++ ",\"timestamp\":\"".data ++ b.timestamp
    ++ "\",\"data\":".data ++ b.data
    ++ ",\"previousHash\":\"".data ++ b.previousHash
    ++ "\",\"nonce\":".data ++ toDec b.nonce
    ++ "\x7d".data

/-- Embedding of `Blockchain.calcularHashBloque`. -/
def calcularHashBloque (b : Block) : JSString :=
  sha256Sync (bloqueString b)

/-- Reading the `pow_incomplete` property of a block object. No statement in
either userscript ever assigns a `pow_incomplete` property to any block, so
reading it on any produced block yields `undefined`, modelled as `none`. -/
def powIncomplete (_ : Block) : Option Bool := none

/-- The `while (nonce < maxIteraciones)` loop of
`Blockchain.calcularProofOfWork`, with the remaining iteration count as
fuel. `pfx` is the precomputed `'0'.repeat(bloque.difficulty)`; `lastHash`
is the `hash` local variable (initially the empty string). On success the
block is returned with the found nonce and hash; on fuel exhaustion the
block keeps the last nonce assigned and receives the last hash computed. -/
def powLoop (pfx : JSString) : Block → Nat → Nat → JSString → Block
  | b, _, 0, lastHash => { b with hash := lastHash }
  | b, nonce, fuel + 1, _ =>
    let b' := { b with nonce := nonce }
    let h := calcularHashBloque b'
    if pfx.isPrefixOf h then { b' with hash := h }
    else powLoop pfx b' (nonce + 1) fuel h

/-- Embedding of `Blockchain.calcularProofOfWork`. -/
def calcularProofOfWork (b : Block) : Block :=
  powLoop (List.replicate b.difficulty '0') b 0 maxIteraciones []

/-- The nonce values for which the loop of `calcularProofOfWork` computes a
candidate hash, mirroring `powLoop` step for step. -/
def triedAux (pfx : JSString) : Block → Nat → Nat → List Nat
  | _, _, 0 => []
  | b, nonce, fuel + 1 =>
    let b' := { b with nonce := nonce }
    let h := calcularHashBloque b'
    if pfx.isPrefixOf h then [nonce]
    else nonce :: triedAux pfx b' (nonce + 1) fuel

/-- The nonces tried during a run of `calcularProofOfWork` on `b`. -/
def noncesProbados (b : Block) : List Nat :=
  triedAux (List.replicate b.difficulty '0') b 0 maxIteraciones

/-- The JSON serialization of the genesis `data` object of
`Blockchain.crearBloqueGenesis` (with `CONFIG.version = '2.0.0'` and
`CONFIG.año = 2025`). -/
def genesisData : JSString :=
  "\x7b\"tipo\":\"GENESIS\",\"descripcion\":\"Inicio de extracción SCJN 2025\",\"arquitecto\":\"GÉNESIS\",\"agente\":\"SCJN Extractor Ultimate v2.0.0\",\"año\":2025\x7d".data

/-- Embedding of `Blockchain.crearBloqueGenesis` (timestamp passed explicitly). -/
def crearBloqueGenesis (ts : JSString) : Block :=
  let b : Block :=
    { index := 0, timestamp := ts, data := genesisData,
      previousHash := List.replicate 64 '0', nonce := 0,
      difficulty := dificultadProofOfWork, hash := [] }
  { b with hash := calcularHashBloque b }

/-- The candidate block built by `Blockchain.agregarBloque` before mining:
index `blockchain.length`, the current timestamp, the given data, the last
block's hash as `previousHash`, nonce 0 and the configured difficulty. -/
def nuevoBloque (chain : List Block) (ultimo : Block) (data ts : JSString) : Block :=
  { index := chain.length, timestamp := ts, data := data,
    previousHash := ultimo.hash, nonce := 0,
    difficulty := dificultadProofOfWork, hash := [] }

/-- Embedding of `Blockchain.agregarBloque` as a function of the current chain: reads the
last block (on an empty chain the script would throw dereferencing
`undefined`, modelled as `none`), mines the candidate block and pushes it. -/
def agregarBloque (chain : List Block) (data ts : JSString) : Option (List Block) :=
  match chain.getLast? with
  | none => none
  | some ultimo =>
      some (chain ++ [calcularProofOfWork (nuevoBloque chain ultimo data ts)])

/-- The genesis-creation step of `ControladorPrincipal.iniciar`: if the
chain is empty, push the genesis block; otherwise leave it alone. -/
def iniciarCadena (chain : List Block) (ts : JSString) : List Block :=
  if chain.isEmpty then [crearBloqueGenesis ts] else chain

/-- The three per-block failures `Blockchain.validarBlockchain` can report. -/
inductive Falla where
  | prevHashNoCoincide
  | hashAlterado
  | powInvalido
deriving DecidableEq

/-- The result object of `Blockchain.validarBlockchain`: either
`{valido: true, totalBloques}` or `{valido: false, error, bloqueIndex}`. -/
inductive ResultadoValidacion where
  | valida (totalBloques : Nat)
  | invalida (bloqueIndex : Nat) (falla : Falla)
deriving DecidableEq

/-- The three checks the body of `validarBlockchain`'s loop performs on
block `b` with predecessor `prev`, in source order: `previousHash` linkage,
hash recomputation, proof-of-work prefix. Returns the first failure. -/
def checkBloque (prev b : Block) : Option Falla :=
  if b.previousHash ≠ prev.hash then some .prevHashNoCoincide
  else if b.hash ≠ calcularHashBloque b then some .hashAlterado
  else if (List.replicate b.difficulty '0').isPrefixOf b.hash then none
  else some .powInvalido

/-- The `for (let i = 1; i < blockchain.length; i++)` loop of
`validarBlockchain`: returns the index and failure of the first bad block,
or `none`. -/
def validarAux (i : Nat) (prev : Block) : List Block → Option (Nat × Falla)
  | [] => none
  | b :: bs =>
    match checkBloque prev b with
    | some f => some (i, f)
    | none => validarAux (i + 1) b bs

/-- Embedding of `Blockchain.validarBlockchain`. The loop starts at index 1, so on the
empty and one-block chains it reports validity immediately. -/
def validarBlockchain (chain : List Block) : ResultadoValidacion :=
  match chain with
  | [] => .valida 0
  | g :: rest =>
    match validarAux 1 g rest with
    | some (i, f) => .invalida i f
    | none => .valida (g :: rest).length

/-- Chains reachable by the script: the genesis block created by
`ControladorPrincipal.iniciar`, followed by any sequence of successful
`agregarBloque` calls. -/
inductive Reachable : List Block → Prop where
  | init (ts : JSString) : Reachable [crearBloqueGenesis ts]
  | step {c c' : List Block} (data ts : JSString) :
      Reachable c → agregarBloque c data ts = some c' → Reachable c'

/-! ## The download path and its hash registry (`Descargador.descargarDocumento`) -/

/-- A `documento` object as consumed by `Descargador`: a locator and a kind. -/
structure Documento where
  url : JSString
  tipo : JSString
deriving DecidableEq

/-- The part of an `expediente` object the download path reads. -/
structure Expediente where
  numero : JSString
deriving DecidableEq

/-- One value of `ESTADO.hashRegistry`, as assigned in
`descargarDocumento`. -/
structure EntradaRegistro where
  hash : JSString
  tamano : Nat
  url : JSString
  expediente : JSString
  timestamp : JSString
deriving DecidableEq

/-- The state field `ESTADO.hashRegistry`: a JavaScript object, i.e. a finite map keyed by
the generated file name. Represented as an association list in insertion
order. -/
abbrev Registro := List (JSString × EntradaRegistro)

/-- JavaScript property assignment `obj[k] = v`: replace the value if the
key is present, otherwise append the new key. -/
def asignarClave : Registro → JSString → EntradaRegistro → Registro
  | [], k, v => [(k, v)]
  | (k', v') :: rest, k, v =>
    if k' = k then (k, v) :: rest else (k', v') :: asignarClave rest k v

/-- Embedding of `numero.replace(/[\/\s]/g, '_')` (the numbers only ever contain `/` and
spaces as separator characters). -/
def normalizarNumero (s : JSString) : JSString :=
  s.map fun c => if c = '/' ∨ c = ' ' then '_' else c

/-- Embedding of `tipo.replace(/\s+/g, '_')`: every maximal run of spaces becomes a
single underscore. -/
def colapsarEspacios : JSString → JSString
  | [] => []
  | [c] => [if c = ' ' then '_' else c]
  | c1 :: c2 :: rest =>
    if c1 = ' ' ∧ c2 = ' ' then colapsarEspacios (c2 :: rest)
    else (if c1 = ' ' then '_' else c1) :: colapsarEspacios (c2 :: rest)

/-- Embedding of `url.split('.').pop().split('?')[0] || 'pdf'`: the text after the last
dot, truncated at the first `?`; the string `'pdf'` if that is empty. -/
def extensionDe (url : JSString) : JSString :=
  let ext := ((url.splitOn '.').getLastD url).takeWhile (· ≠ '?')
  if ext = [] then "pdf".data else ext

/-- Embedding of `Descargador.generarNombreArchivo`: the registry key is built from the
expediente number, the document kind, the current `Date.now()` timestamp
and the locator's extension. -/
def generarNombreArchivo (doc : Documento) (exp : Expediente) (timestamp : Nat) : JSString :=
  normalizarNumero exp.numero ++ "_".data ++ colapsarEspacios doc.tipo
    ++ "_".data ++ toDec timestamp ++ ".".data ++ extensionDe doc.url

/-- The `resolve`d result object of a successful `descargarDocumento`. -/
structure ResultadoDescarga where
  exito : Bool
  nombreArchivo : JSString
  hash : JSString
  tamano : Nat
deriving DecidableEq

/-- The success path (`onload`) of `Descargador.descargarDocumento`,
restricted to the hash-registry state it mutates: the byte payload is
hashed with the browser's SHA-256 digest (`Crypto.sha256File`, passed in as
the function `hashFn`), the registry is keyed by the generated file name,
and the result object is resolved. The `GM_download` call, the statistics
counters, the blockchain append and the audit-ledger push of the source do
not read or write `ESTADO.hashRegistry` and are outside this projection;
the Mass-Downloader variant assigns the registry identically. -/
def descargarDocumento (hashFn : List Nat → JSString) (reg : Registro)
    (doc : Documento) (exp : Expediente) (tsNow : Nat) (tsIso : JSString)
    (bytes : List Nat) : Registro × ResultadoDescarga :=
  let nombreArchivo := generarNombreArchivo doc exp tsNow
  let hash := hashFn bytes
  let entrada : EntradaRegistro :=
    { hash := hash, tamano := bytes.length, url := doc.url,
      expediente := exp.numero, timestamp := tsIso }
  (asignarClave reg nombreArchivo entrada,
   { exito := true, nombreArchivo := nombreArchivo, hash := hash,
     tamano := bytes.length })

/-- Number of registry entries recorded for a given content hash. -/
def entradasConHash (reg : Registro) (h : JSString) : Nat :=
  (reg.filter fun p => p.2.hash = h).length

/-! ## Helper lemmas: the 32-bit accumulator and the hash's shape -/

theorem toInt32_bounds (n : Int) :
    -2147483648 ≤ toInt32 n ∧ toInt32 n < 2147483648 := by
  unfold toInt32
  have h1 : 0 ≤ n % 4294967296 := Int.emod_nonneg n (by norm_num)
  have h2 : n % 4294967296 < 4294967296 := Int.emod_lt_of_pos n (by norm_num)
  dsimp only
  split <;> omega

theorem foldl_sha256Step_bounds (s : JSString) (h : Int)
    (hh : -2147483648 ≤ h ∧ h < 2147483648) :
    -2147483648 ≤ s.foldl (fun a c => sha256Step a c.toNat) h ∧
      s.foldl (fun a c => sha256Step a c.toNat) h < 2147483648 := by
  induction s generalizing h with
  | nil => exact hh
  | cons c cs ih => exact ih _ (toInt32_bounds _)

theorem digitsAux_length_le (k : Nat) :
    ∀ fuel n, n < 16 ^ k → 1 ≤ k → n < fuel →
      (digitsAux 16 fuel n).length ≤ k := by
  induction k with
  | zero => intro _ _ _ hk _; omega
  | succ k ih =>
    intro fuel n hn _ hfuel
    match fuel with
    | 0 => omega
    | fuel + 1 =>
      unfold digitsAux
      split
      · simp only [List.length_cons, List.length_nil]
        omega
      · rename_i hge
        push_neg at hge
        have hk1 : 1 ≤ k := by
          by_contra hk0
          have hkz : k = 0 := by omega
          subst hkz
          norm_num at hn
          omega
        have h16 : (16 : ℕ) ^ (k + 1) = 16 * 16 ^ k := by ring
        have hdiv : n / 16 < 16 ^ k := Nat.div_lt_of_lt_mul (by omega)
        have hdivlt : n / 16 < n := Nat.div_lt_self (by omega) (by norm_num)
        have hlen := ih fuel (n / 16) hdiv hk1 (by omega)
        simp only [List.length_append, List.length_cons, List.length_nil]
        omega

theorem toHex_length_le (n : Nat) (hn : n ≤ 2147483648) : (toHex n).length ≤ 8 := by
  have : n < 16 ^ 8 := by norm_num at *; omega
  exact digitsAux_length_le 8 (n + 1) n this (by norm_num) (by omega)

/-- The accumulator digest is at most 8 hex digits long. -/
theorem sha256Sync_core_length (s : JSString) :
    (toHex ((s.foldl (fun h c => sha256Step h c.toNat) 0).natAbs)).length ≤ 8 := by
  have hb := foldl_sha256Step_bounds s 0 (by norm_num)
  apply toHex_length_le
  omega

theorem sha256Sync_eq (s : JSString) :
    sha256Sync s =
      List.replicate (64 - (toHex ((s.foldl (fun h c => sha256Step h c.toNat) 0).natAbs)).length) '0'
        ++ toHex ((s.foldl (fun h c => sha256Step h c.toNat) 0).natAbs) := rfl

theorem sha256Sync_length (s : JSString) : (sha256Sync s).length = 64 := by
  rw [sha256Sync_eq]
  have := sha256Sync_core_length s
  simp only [List.length_append, List.length_replicate]
  omega

theorem sha256Sync_take56 (s : JSString) :
    (sha256Sync s).take 56 = List.replicate 56 '0' := by
  rw [sha256Sync_eq]
  have h8 := sha256Sync_core_length s
  set hex := toHex ((s.foldl (fun h c => sha256Step h c.toNat) 0).natAbs) with hhex
  have h56 : 56 ≤ 64 - hex.length := by omega
  rw [List.take_append_eq_append_take, List.take_replicate]
  have hmin : min 56 (64 - hex.length) = 56 := by omega
  have hz : 56 - (List.replicate (64 - hex.length) '0').length = 0 := by
    simp only [List.length_replicate]; omega
  rw [hmin, hz, List.take_zero, List.append_nil]

/-! ## Helper lemmas: `List.isPrefixOf` on character lists -/

theorem isPrefixOf_append (p t : JSString) : p.isPrefixOf (p ++ t) = true := by
  rw [List.isPrefixOf_iff_prefix]
  exact ⟨t, rfl⟩

theorem length_le_of_isPrefixOf (p s : JSString) (hp : p.isPrefixOf s = true) :
    p.length ≤ s.length := by
  rw [List.isPrefixOf_iff_prefix] at hp
  obtain ⟨t, ht⟩ := hp
  rw [← ht]
  simp

/-- Any difficulty of at most 56 leading zeros is met by every output of
`sha256Sync`. -/
theorem zeros_isPrefixOf_sha256Sync (s : JSString) (d : Nat) (hd : d ≤ 56) :
    (List.replicate d '0').isPrefixOf (sha256Sync s) = true := by
  have h8 := sha256Sync_core_length s
  rw [sha256Sync_eq]
  set hex := toHex ((s.foldl (fun h c => sha256Step h c.toNat) 0).natAbs) with hhex
  have hsplit : (64 - hex.length) = d + (64 - hex.length - d) := by omega
  rw [hsplit, List.replicate_add, List.append_assoc]
  exact isPrefixOf_append _ _

/-- A difficulty above the 64-character hash length is never met. -/
theorem zeros_not_isPrefixOf_sha256Sync (s : JSString) (d : Nat) (hd : 64 < d) :
    (List.replicate d '0').isPrefixOf (sha256Sync s) = false := by
  by_contra hne
  have htrue : (List.replicate d '0').isPrefixOf (sha256Sync s) = true := by
    cases h : (List.replicate d '0').isPrefixOf (sha256Sync s)
    · exact absurd h hne
    · rfl
  have := length_le_of_isPrefixOf _ _ htrue
  rw [sha256Sync_length, List.length_replicate] at this
  omega

/-! ## Helper lemmas: the mining loop -/

/-- Whatever the mining loop does, it only ever rewrites the `nonce` and
`hash` fields of the block it was given. -/
theorem powLoop_shape (pfx : JSString) :
    ∀ (fuel : Nat) (b : Block) (nonce : Nat) (lastHash : JSString),
      ∃ n h, powLoop pfx b nonce fuel lastHash = { b with nonce := n, hash := h } := by
  intro fuel
  induction fuel with
  | zero =>
    intro b nonce lastHash
    exact ⟨b.nonce, lastHash, rfl⟩
  | succ fuel ih =>
    intro b nonce lastHash
    rw [powLoop]
    dsimp only
    split
    · exact ⟨nonce, _, rfl⟩
    · obtain ⟨n, h, heq⟩ := ih { b with nonce := nonce } (nonce + 1)
        (calcularHashBloque { b with nonce := nonce })
      exact ⟨n, h, by rw [heq]⟩

/-- With a difficulty of at most 56 leading zeros, the very first candidate
hash already meets the target: mining succeeds at nonce 0. -/
theorem powLoop_success_at_zero (b : Block) (hd : b.difficulty ≤ 56)
    (fuel : Nat) (lastHash : JSString) :
    powLoop (List.replicate b.difficulty '0') b 0 (fuel + 1) lastHash =
      { b with nonce := 0, hash := calcularHashBloque { b with nonce := 0 } } := by
  rw [powLoop]
  simp only [calcularHashBloque, zeros_isPrefixOf_sha256Sync _ _ hd]
  simp

theorem calcularProofOfWork_eq_of_le56 (b : Block) (hd : b.difficulty ≤ 56) :
    calcularProofOfWork b =
      { b with nonce := 0, hash := calcularHashBloque { b with nonce := 0 } } := by
  rw [calcularProofOfWork, show maxIteraciones = 999999 + 1 from rfl]
  exact powLoop_success_at_zero b hd 999999 []

/-- With a difficulty beyond the 64-character hash length, no candidate
ever meets the target and the loop burns all its fuel. -/
theorem powLoop_exhaust (d : Nat) (hd : 64 < d) :
    ∀ (fuel : Nat) (b : Block) (nonce : Nat) (lastHash : JSString),
      powLoop (List.replicate d '0') b nonce (fuel + 1) lastHash =
        { b with nonce := nonce + fuel,
                 hash := calcularHashBloque { b with nonce := nonce + fuel } } := by
  intro fuel
  induction fuel with
  | zero =>
    intro b nonce lastHash
    rw [powLoop]
    simp only [calcularHashBloque, zeros_not_isPrefixOf_sha256Sync _ _ hd]
    rw [powLoop]
    simp
  | succ fuel ih =>
    intro b nonce lastHash
    rw [powLoop]
    simp only [calcularHashBloque, zeros_not_isPrefixOf_sha256Sync _ _ hd]
    simp only [Bool.false_eq_true, if_false]
    rw [ih { b with nonce := nonce } (nonce + 1)
      (sha256Sync (bloqueString { b with nonce := nonce }))]
    rw [show nonce + 1 + fuel = nonce + (fuel + 1) from by omega]
    rfl

theorem calcularProofOfWork_exhaust (b : Block) (hd : 64 < b.difficulty) :
    calcularProofOfWork b =
      { b with nonce := 999999,
               hash := calcularHashBloque { b with nonce := 999999 } } := by
  rw [calcularProofOfWork, show maxIteraciones = 999999 + 1 from rfl]
  simpa using powLoop_exhaust b.difficulty hd 999999 b 0 []

/-- The recomputed hash does not depend on the stored `hash` field. -/
theorem calcularHashBloque_dos_campos (b : Block) (n : Nat) (h' : JSString) :
    calcularHashBloque { b with nonce := n, hash := h' } =
      calcularHashBloque { b with nonce := n } := rfl

/-- A mining run whose difficulty exceeds the hash length ends with a
block that does not meet its own difficulty target. -/
theorem calcularProofOfWork_pow_falla (b : Block) (hd : 64 < b.difficulty) :
    (List.replicate (calcularProofOfWork b).difficulty '0').isPrefixOf
        (calcularProofOfWork b).hash = false := by
  rw [calcularProofOfWork_exhaust b hd]
  exact zeros_not_isPrefixOf_sha256Sync
    (bloqueString { b with nonce := 999999 }) _ hd

/-- With a difficulty of at most 56 the loop computes exactly one candidate
hash, at nonce 0. -/
theorem noncesProbados_eq_of_le56 (b : Block) (hd : b.difficulty ≤ 56) :
    noncesProbados b = [0] := by
  rw [noncesProbados, show maxIteraciones = 999999 + 1 from rfl, triedAux]
  simp only [calcularHashBloque, zeros_isPrefixOf_sha256Sync _ _ hd]
  simp

/-! ## Helper lemmas: validation -/

/-- The check `checkBloque` reads nothing of the predecessor but its stored hash. -/
theorem checkBloque_hash_only (prev prev' b : Block) (h : prev.hash = prev'.hash) :
    checkBloque prev b = checkBloque prev' b := by
  unfold checkBloque
  rw [h]

theorem validarAux_hash_only :
    ∀ (rest : List Block) (i : Nat) (g g' : Block), g.hash = g'.hash →
      validarAux i g rest = validarAux i g' rest := by
  intro rest
  induction rest with
  | nil => intro _ _ _ _; rfl
  | cons b bs ih =>
    intro i g g' h
    simp only [validarAux]
    rw [checkBloque_hash_only g g' b h]

/-- The last block of the nonempty chain `prev :: pre`. -/
def ultimoDe (prev : Block) (pre : List Block) : Block :=
  pre.foldl (fun _ y => y) prev

/-- If all the consecutive checks along `prev :: pre` pass and the next
block `b` fails its check, the validation loop reports the failure of `b`
with its index, ignoring everything that comes after. -/
theorem validarAux_first_violation :
    ∀ (pre : List Block) (prev : Block) (i : Nat) (b : Block)
      (rest : List Block) (f : Falla),
      List.Chain' (fun x y => checkBloque x y = none) (prev :: pre) →
      checkBloque (ultimoDe prev pre) b = some f →
      validarAux i prev (pre ++ b :: rest) = some (i + pre.length, f) := by
  intro pre
  induction pre with
  | nil =>
    intro prev i b rest f _ hlast
    simp only [ultimoDe, List.foldl_nil] at hlast
    simp [validarAux, hlast]
  | cons p ps ih =>
    intro prev i b rest f hchain hlast
    rw [List.chain'_cons] at hchain
    simp only [List.cons_append, validarAux, hchain.1, List.append_eq]
    rw [ih p (i + 1) b rest f hchain.2 hlast]
    simp only [List.length_cons]
    congr 2
    omega

/-! ## Concrete fixtures used by witnesses and counterexamples -/

/-- A sample ISO timestamp. -/
def tsPrueba : JSString := "2025-01-01T00:00:00.000Z".data

/-- A sample block with the configured difficulty. -/
def bloquePrueba : Block :=
  { index := 1, timestamp := tsPrueba, data := "\x7b\"tipo\":\"PRUEBA\"\x7d".data,
    previousHash := List.replicate 64 '0', nonce := 0,
    difficulty := dificultadProofOfWork, hash := [] }

/-- A sample block whose difficulty (65) exceeds the hash length, so that
its mining run exhausts the iteration ceiling. -/
def bloque65 : Block :=
  { index := 1, timestamp := tsPrueba, data := "\x7b\"tipo\":\"PRUEBA\"\x7d".data,
    previousHash := ['p'], nonce := 0, difficulty := 65, hash := [] }

/-- A predecessor whose stored hash matches `bloque65.previousHash`. -/
def genesis65 : Block :=
  { index := 0, timestamp := tsPrueba, data := "\x7b\x7d".data,
    previousHash := List.replicate 64 '0', nonce := 0, difficulty := 65,
    hash := ['p'] }

/-- Two sample blocks that agree on every hashed field and differ in
`difficulty` (4 versus 7). -/
def bloqueDif4 : Block :=
  { index := 2, timestamp := tsPrueba, data := "\x7b\"k\":1\x7d".data,
    previousHash := List.replicate 64 '0', nonce := 5, difficulty := 4,
    hash := ['x'] }

def bloqueDif7 : Block :=
  { index := 2, timestamp := tsPrueba, data := "\x7b\"k\":1\x7d".data,
    previousHash := List.replicate 64 '0', nonce := 5, difficulty := 7,
    hash := ['y'] }

/-- A three-block chain in which blocks 1 and 2 both break the
previous-hash linkage. -/
def gMal : Block :=
  { index := 0, timestamp := tsPrueba, data := "0".data,
    previousHash := List.replicate 64 '0', nonce := 0, difficulty := 4,
    hash := ['a'] }

def bMal1 : Block :=
  { index := 1, timestamp := tsPrueba, data := "1".data,
    previousHash := ['b'], nonce := 0, difficulty := 4, hash := ['c'] }

def bMal2 : Block :=
  { index := 2, timestamp := tsPrueba, data := "2".data,
    previousHash := ['d'], nonce := 0, difficulty := 4, hash := ['e'] }

/-- Two sample document references serving the same bytes. -/
def docPrueba1 : Documento := { url := "http://x/a.pdf".data, tipo := "Acuerdo".data }

def docPrueba2 : Documento := { url := "http://x/b.pdf".data, tipo := "Acuerdo".data }

def expPrueba : Expediente := { numero := "123/2025".data }

/-- A stand-in for the browser SHA-256 digest in closed instances: any
function of the bytes alone. -/
def hashPrueba : List Nat → JSString := fun _ => "h".data

/-! ## Claims -/

/-- C7: `iniciarCadena` on the empty chain produces exactly one block, the
genesis block, whose `previousHash` is the all-zero sentinel of 64 zero hex
characters, and `validarBlockchain` on that one-block chain returns the
valid result (no violation is reported). -/
theorem genesis_inicial_valido (ts : JSString) :
    iniciarCadena [] ts = [crearBloqueGenesis ts] ∧
    (crearBloqueGenesis ts).previousHash = List.replicate 64 '0' ∧
    validarBlockchain (iniciarCadena [] ts) = .valida 1 :=
  ⟨rfl, rfl, rfl⟩

/-- C8: appending to a nonempty chain leaves every existing block unchanged
in value and position, and the new chain is the old chain with exactly one
block added at the end. -/
theorem agregarBloque_append_only (chain : List Block) (data ts : JSString)
    (h : chain ≠ []) :
    ∃ b, agregarBloque chain data ts = some (chain ++ [b]) ∧
      (chain ++ [b]).take chain.length = chain := by
  obtain ⟨u, hu⟩ := Option.isSome_iff_exists.mp (List.getLast?_isSome.mpr h)
  refine ⟨calcularProofOfWork (nuevoBloque chain u data ts), ?_, ?_⟩
  · rw [agregarBloque, hu]
  · exact List.take_left chain _

/-- C8 witness: appending once to the genesis chain. -/
theorem agregarBloque_append_only_w :
    ∃ b, agregarBloque [crearBloqueGenesis tsPrueba] ("d".data) tsPrueba =
        some ([crearBloqueGenesis tsPrueba] ++ [b]) ∧
      ([crearBloqueGenesis tsPrueba] ++ [b]).take 1 = [crearBloqueGenesis tsPrueba] :=
  agregarBloque_append_only [crearBloqueGenesis tsPrueba] ("d".data) tsPrueba
    (by simp)

/-- C9: every output of `sha256Sync` is exactly 64 characters whose first
56 characters are all `'0'`; consequently for any block whose difficulty is
at most 56 the proof-of-work loop succeeds at the very first nonce, 0. -/
theorem sha256Sync_degenerado (s : JSString) (b : Block) :
    ((sha256Sync s).length = 64 ∧ (sha256Sync s).take 56 = List.replicate 56 '0') ∧
    (b.difficulty ≤ 56 →
      calcularProofOfWork b =
        { b with nonce := 0, hash := calcularHashBloque { b with nonce := 0 } }) :=
  ⟨⟨sha256Sync_length s, sha256Sync_take56 s⟩,
   fun hd => calcularProofOfWork_eq_of_le56 b hd⟩

/-- C9 witness: the empty string and a block of difficulty 4. -/
theorem sha256Sync_degenerado_w :
    (((sha256Sync []).length = 64 ∧
      (sha256Sync []).take 56 = List.replicate 56 '0')) ∧
    calcularProofOfWork bloquePrueba =
      { bloquePrueba with
        nonce := 0,
        hash := calcularHashBloque { bloquePrueba with nonce := 0 } } :=
  ⟨(sha256Sync_degenerado [] bloquePrueba).1,
   (sha256Sync_degenerado [] bloquePrueba).2 (by decide)⟩

/-- C10: validation never examines the genesis block itself beyond its
stored hash: two chains whose head blocks agree on the stored `hash` field
(whatever their data, timestamp, nonce or difficulty) validate to the same
result. -/
theorem validar_ignora_genesis (rest : List Block) (g g' : Block)
    (h : g.hash = g'.hash) :
    validarBlockchain (g :: rest) = validarBlockchain (g' :: rest) := by
  simp only [validarBlockchain]
  rw [validarAux_hash_only rest 1 g g' h]
  simp only [List.length_cons]

/-- C10 witness: two genesis blocks differing in data, timestamp, nonce and
difficulty but with the same stored hash validate to the same result. -/
theorem validar_ignora_genesis_w :
    validarBlockchain
        [{ index := 0, timestamp := "t1".data, data := "1".data,
           previousHash := [], nonce := 0, difficulty := 4, hash := ['a'] }] =
      validarBlockchain
        [{ index := 0, timestamp := "t2".data, data := "2".data,
           previousHash := [], nonce := 7, difficulty := 9, hash := ['a'] }] :=
  validar_ignora_genesis [] _ _ rfl

/-- C3: every nonce for which the proof-of-work loop computes a candidate
hash while mining a block appended by `agregarBloque` is not prime (with
the configured difficulty 4 the loop only ever tries nonce 0, which is not
prime). -/
theorem nonces_probados_no_primos (chain : List Block) (ultimo : Block)
    (data ts : JSString) (_h : chain.getLast? = some ultimo) :
    ∀ n ∈ noncesProbados (nuevoBloque chain ultimo data ts), ¬ n.Prime := by
  intro n hn
  have hd : (nuevoBloque chain ultimo data ts).difficulty ≤ 56 := by
    simp [nuevoBloque, dificultadProofOfWork]
  rw [noncesProbados_eq_of_le56 _ hd] at hn
  simp only [List.mem_singleton] at hn
  subst hn
  exact Nat.not_prime_zero

/-- C3 witness: mining the block appended onto the genesis chain. -/
theorem nonces_probados_no_primos_w :
    ([crearBloqueGenesis tsPrueba].getLast? = some (crearBloqueGenesis tsPrueba)) ∧
    ∀ n ∈ noncesProbados
        (nuevoBloque [crearBloqueGenesis tsPrueba] (crearBloqueGenesis tsPrueba)
          ("d".data) tsPrueba), ¬ n.Prime :=
  ⟨by simp, nonces_probados_no_primos _ _ _ _ (by simp)⟩

/-- C1 counterexample: the chain produced by initialization is reachable
and its only block carries the identifier 0 — which is not a prime
number, refuting "the block's identifier is a prime number" already at the
genesis block. -/
theorem genesis_index_no_primo :
    iniciarCadena [] tsPrueba = [crearBloqueGenesis tsPrueba] ∧
    (crearBloqueGenesis tsPrueba).index = 0 ∧ ¬ Nat.Prime 0 :=
  ⟨rfl, rfl, Nat.not_prime_zero⟩

/-- C1 amended: on every chain reachable from initialization by appends,
the block identifiers are exactly the consecutive integers 0, 1, 2, … —
strictly increasing, but not prime (the genesis identifier is 0). -/
theorem indices_consecutivos (c : List Block) (hr : Reachable c) :
    ∀ i (hi : i < c.length), (c.get ⟨i, hi⟩).index = i := by
  induction hr with
  | init ts =>
    intro i hi
    simp only [List.length_cons, List.length_nil] at hi
    have hi0 : i = 0 := by omega
    subst hi0
    rfl
  | step data ts hr heq ih =>
    rename_i chain c'
    intro i hi
    cases hl : chain.getLast? with
    | none =>
      rw [agregarBloque, hl] at heq
      exact absurd heq (by simp)
    | some u =>
      rw [agregarBloque, hl] at heq
      injection heq with heq'
      subst heq'
      rw [List.get_eq_getElem]
      dsimp only
      by_cases hic : i < chain.length
      · rw [List.getElem_append_left hic]
        have h2 := ih i hic
        rw [List.get_eq_getElem] at h2
        exact h2
      · have hlen : i = chain.length := by
          simp only [List.length_append, List.length_cons, List.length_nil] at hi
          omega
        subst hlen
        obtain ⟨n, hsh, hm⟩ :=
          powLoop_shape
            (List.replicate (nuevoBloque chain u data ts).difficulty '0')
            maxIteraciones (nuevoBloque chain u data ts) 0 []
        simp only [List.getElem_concat_length]
        simp only [calcularProofOfWork]
        rw [hm]
        rfl

/-- C1 amended witness: the genesis chain's only block has identifier 0. -/
theorem indices_consecutivos_w :
    ([crearBloqueGenesis tsPrueba].get ⟨0, by simp⟩).index = 0 :=
  indices_consecutivos [crearBloqueGenesis tsPrueba]
    (Reachable.init tsPrueba) 0 (by simp)

/-- C2 counterexample: in the chain `[gMal, bMal1, bMal2]` blocks 1 and 2
both break the previous-hash linkage, yet validation returns a single
violation naming block 1 only — nothing in the result reports block 2. -/
theorem validar_reporta_solo_primero :
    validarBlockchain [gMal, bMal1, bMal2] = .invalida 1 .prevHashNoCoincide ∧
    bMal2.previousHash ≠ bMal1.hash :=
  ⟨by decide, by decide⟩

/-- C2 amended: validation walks the chain from block 1 and stops at the
first violation: if every consecutive check along `g :: pre` passes and the
next block `b` fails its check, the result is that single violation at
index `pre.length + 1`, whatever comes after `b` (later bad blocks are
never examined or reported). -/
theorem validar_primer_violacion (g : Block) (pre : List Block) (b : Block)
    (rest : List Block) (f : Falla)
    (hok : List.Chain' (fun x y => checkBloque x y = none) (g :: pre))
    (hbad : checkBloque (ultimoDe g pre) b = some f) :
    validarBlockchain (g :: (pre ++ b :: rest)) = .invalida (pre.length + 1) f := by
  simp only [validarBlockchain]
  rw [validarAux_first_violation pre g 1 b rest f hok hbad]
  rw [Nat.add_comm]

/-- C2 amended witness: a bad block right after genesis, followed by a
second bad block that the result does not mention. -/
theorem validar_primer_violacion_w :
    validarBlockchain [gMal, bMal1, bMal2] = .invalida 1 .prevHashNoCoincide :=
  validar_primer_violacion gMal [] bMal1 [bMal2] .prevHashNoCoincide
    (by simp) (by decide)

/-- C4 counterexample: a mining run that exhausts the iteration ceiling
(difficulty 65 can never be met, as hashes are 64 characters) emits a block
whose `pow_incomplete` property is undefined — in particular not `true`. -/
theorem pow_agotado_sin_bandera :
    (List.replicate (calcularProofOfWork bloque65).difficulty '0').isPrefixOf
        (calcularProofOfWork bloque65).hash = false ∧
    powIncomplete (calcularProofOfWork bloque65) ≠ some true :=
  ⟨calcularProofOfWork_pow_falla bloque65 (by decide), by simp [powIncomplete]⟩

/-- C4 amended: when the proof-of-work search exhausts its iteration
ceiling (any difficulty above the 64-character hash length), the block is
still emitted — with the hash computed at the last nonce tried (999999) —
but carries no `pow_incomplete` flag (no such property is ever assigned);
validation does treat such a block as failing the proof-of-work check while
its previous-hash linkage is checked (and passes) first. -/
theorem pow_agotado_emite_sin_bandera (b : Block) (hd : 64 < b.difficulty) :
    calcularProofOfWork b =
      { b with
        nonce := maxIteraciones - 1,
        hash := calcularHashBloque { b with nonce := maxIteraciones - 1 } } ∧
    powIncomplete (calcularProofOfWork b) = none ∧
    (List.replicate (calcularProofOfWork b).difficulty '0').isPrefixOf
        (calcularProofOfWork b).hash = false ∧
    ∀ g : Block, g.hash = b.previousHash →
      validarBlockchain [g, calcularProofOfWork b] = .invalida 1 .powInvalido := by
  have hm := calcularProofOfWork_exhaust b hd
  have hpow := calcularProofOfWork_pow_falla b hd
  refine ⟨hm, rfl, hpow, ?_⟩
  intro g hg
  have hh := calcularHashBloque_dos_campos b 999999
    (calcularHashBloque { b with nonce := 999999 })
  have hpow' : (List.replicate b.difficulty '0').isPrefixOf
      (calcularHashBloque { b with nonce := 999999 }) = false := by
    have h2 := calcularProofOfWork_pow_falla b hd
    rw [hm] at h2
    exact h2
  have hck : checkBloque g (calcularProofOfWork b) = some .powInvalido := by
    rw [hm]
    simp [checkBloque, hg, hh, hpow']
  simp only [validarBlockchain, validarAux, hck]

/-- C4 witness: the concrete difficulty-65 block and its predecessor. -/
theorem pow_agotado_emite_sin_bandera_w :
    calcularProofOfWork bloque65 =
      { bloque65 with
        nonce := maxIteraciones - 1,
        hash := calcularHashBloque { bloque65 with nonce := maxIteraciones - 1 } } ∧
    powIncomplete (calcularProofOfWork bloque65) = none ∧
    validarBlockchain [genesis65, calcularProofOfWork bloque65] =
      .invalida 1 .powInvalido := by
  have h := pow_agotado_emite_sin_bandera bloque65 (by decide)
  exact ⟨h.1, h.2.1, h.2.2.2 genesis65 rfl⟩

/-- C5 counterexample: `bloqueDif4` and `bloqueDif7` agree on every field
except `difficulty` (and the stored hash), yet hash recomputation yields
the same value for both — changing the difficulty field does not change
the recomputed hash. -/
theorem hash_ignora_difficulty :
    calcularHashBloque bloqueDif4 = calcularHashBloque bloqueDif7 ∧
    bloqueDif4.difficulty ≠ bloqueDif7.difficulty :=
  ⟨rfl, by decide⟩

/-- C5 amended: the stored hash is a digest over `index`, `timestamp`,
`data`, `previousHash` and `nonce`, in that fixed order — but not over
`difficulty` (nor the stored hash itself): any two blocks agreeing on those
five fields recompute to the same hash. -/
theorem hash_cubre_cinco_campos (b b' : Block)
    (h1 : b.index = b'.index) (h2 : b.timestamp = b'.timestamp)
    (h3 : b.data = b'.data) (h4 : b.previousHash = b'.previousHash)
    (h5 : b.nonce = b'.nonce) :
    calcularHashBloque b = calcularHashBloque b' := by
  cases b
  cases b'
  simp only at h1 h2 h3 h4 h5
  subst h1 h2 h3 h4 h5
  rfl

/-- C5 amended witness: the two difficulty-variant blocks. -/
theorem hash_cubre_cinco_campos_w :
    calcularHashBloque bloqueDif4 = calcularHashBloque bloqueDif7 :=
  hash_cubre_cinco_campos bloqueDif4 bloqueDif7 rfl rfl rfl rfl rfl

/-- C6 counterexample: two fetches through `descargarDocumento` of the
identical byte payload (from two locators, at two timestamps) compute the
same content hash, but afterwards the registry holds two entries for that
content — one per fetch — not one. -/
theorem registro_duplica_contenido :
    (descargarDocumento hashPrueba [] docPrueba1 expPrueba 1 ("i1".data)
        [1, 2, 3]).2.hash =
      (descargarDocumento hashPrueba
        (descargarDocumento hashPrueba [] docPrueba1 expPrueba 1 ("i1".data)
          [1, 2, 3]).1
        docPrueba2 expPrueba 2 ("i2".data) [1, 2, 3]).2.hash ∧
    entradasConHash
        (descargarDocumento hashPrueba
          (descargarDocumento hashPrueba [] docPrueba1 expPrueba 1 ("i1".data)
            [1, 2, 3]).1
          docPrueba2 expPrueba 2 ("i2".data) [1, 2, 3]).1
        (hashPrueba [1, 2, 3]) ≠ 1 :=
  ⟨rfl, by decide⟩

/-- C6 amended: for identical byte payloads the computed content hash is
identical (the digest is a function of the bytes alone), but the registry
keys entries by the generated file name — which embeds the fetch timestamp
— so two fetches of byte-identical content leave two registry entries, one
per fetch, not one per content. -/
theorem descarga_sin_dedup (hashFn : List Nat → JSString)
    (d1 d2 : Documento) (e1 e2 : Expediente) (t1 t2 : Nat)
    (iso1 iso2 : JSString) (bytes : List Nat)
    (hne : generarNombreArchivo d1 e1 t1 ≠ generarNombreArchivo d2 e2 t2) :
    (descargarDocumento hashFn [] d1 e1 t1 iso1 bytes).2.hash =
      (descargarDocumento hashFn
        (descargarDocumento hashFn [] d1 e1 t1 iso1 bytes).1
        d2 e2 t2 iso2 bytes).2.hash ∧
    entradasConHash
        (descargarDocumento hashFn
          (descargarDocumento hashFn [] d1 e1 t1 iso1 bytes).1
          d2 e2 t2 iso2 bytes).1
        (hashFn bytes) = 2 := by
  constructor
  · rfl
  · simp only [descargarDocumento, asignarClave, entradasConHash]
    rw [if_neg hne]
    simp

/-- C6 amended witness: the two concrete fetches of the same three bytes. -/
theorem descarga_sin_dedup_w :
    (descargarDocumento hashPrueba [] docPrueba1 expPrueba 1 ("i1".data)
        [1, 2, 3]).2.hash =
      (descargarDocumento hashPrueba
        (descargarDocumento hashPrueba [] docPrueba1 expPrueba 1 ("i1".data)
          [1, 2, 3]).1
        docPrueba2 expPrueba 2 ("i2".data) [1, 2, 3]).2.hash ∧
    entradasConHash
        (descargarDocumento hashPrueba
          (descargarDocumento hashPrueba [] docPrueba1 expPrueba 1 ("i1".data)
            [1, 2, 3]).1
          docPrueba2 expPrueba 2 ("i2".data) [1, 2, 3]).1
        (hashPrueba [1, 2, 3]) = 2 :=
  descarga_sin_dedup hashPrueba docPrueba1 docPrueba2 expPrueba expPrueba
    1 2 ("i1".data) ("i2".data) [1, 2, 3] (by decide)

end SCJN
